import Mathlib

/-!
# Verification of the swarm-cluster cleaving engine (OTU_cleaver.py)

This file gives a shallow embedding of the cluster-cleaving pipeline of
`src/OTU_cleaver.py` and settles the frozen claims about it.

Modelling conventions:
* Python dictionaries are modelled as insertion-ordered association lists
  (`List (String × V)`), with `dictInsert` replacing in place when the key is
  present and appending otherwise, exactly like CPython assignment, and
  `dictDel` removing the key, like CPython `del`.
* Python sets of strings are modelled as duplicate-free lists; `setAdd` is
  Python `set.add` (a no-op when the element is present).  Where the source
  iterates over a set (an order the Python runtime does not fix, since string
  hashing is randomized per process), the model takes the enumeration as an
  explicit list and the relevant theorems quantify over permutations of it.
* The 256-bucket sharding of the source (`int(s[0:2], 16)` selecting one of
  256 dictionaries) is modelled by a single association list guarded by
  `hexIndex`: two equal keys always land in the same bucket, so a single map
  has the same contents, while `hexIndex` retains the fatal `ValueError`
  raised by `int` on identifiers lacking a hexadecimal two-character prefix.
  (Python `int(s, 16)` additionally tolerates surrounding whitespace and a
  sign; pipeline identifiers are plain alphanumeric tokens, on which the two
  semantics coincide.)
* Fallible code (unpacking a short record, a failed dictionary lookup, an
  unhandled exception aborting the process) is modelled with `Option`:
  `none` is an abort of the run.
* Python floats are modelled with exact rationals (the fixed constant 0.05
  becomes `(1 : ℚ) / 20`); for the sample counts arising here the comparison
  results agree with IEEE double evaluation.
-/

/-- Value of a hexadecimal digit, as accepted by Python `int(·, 16)`. -/
def hexVal (c : Char) : Option Nat :=
  if '0' ≤ c ∧ c ≤ '9' then some (c.toNat - '0'.toNat)
  else if 'a' ≤ c ∧ c ≤ 'f' then some (c.toNat - 'a'.toNat + 10)
  else if 'A' ≤ c ∧ c ≤ 'F' then some (c.toNat - 'A'.toNat + 10)
  else none

/-- Source: `index = int(s[0:2], 16)` (OTU_cleaver.py lines 74, 118, 153,
156, 202, 233, 318, 329, 339).  Python takes the first at-most-two characters of the
identifier and parses them as a hexadecimal number; an empty identifier or a
non-hexadecimal character raises `ValueError`, aborting the run. -/
def hexIndex (s : String) : Option Nat :=
  match s.toList with
  | [] => none
  | [c] => hexVal c
  | c1 :: c2 :: _ =>
      match hexVal c1, hexVal c2 with
      | some h1, some h2 => some (16 * h1 + h2)
      | _, _ => none

/-- Python dictionary lookup (`m[k]` / `k in m`). -/
def dictGet {V : Type} : List (String × V) → String → Option V
  | [], _ => none
  | (k, v) :: rest, s => if k = s then some v else dictGet rest s

/-- Python dictionary assignment `m[k] = v`: replace in place when the key
exists, append otherwise (CPython preserves insertion order). -/
def dictInsert {V : Type} : List (String × V) → String → V → List (String × V)
  | [], k, v => [(k, v)]
  | (k0, v0) :: rest, k, v =>
      if k0 = k then (k, v) :: rest else (k0, v0) :: dictInsert rest k v

/-- Python `del m[k]` restricted to keys that are present; on an absent key
it leaves the dictionary unchanged (the source only deletes after a
membership test, so the two agree on every reachable call). -/
def dictDel {V : Type} : List (String × V) → String → List (String × V)
  | [], _ => []
  | (k0, v0) :: rest, k => if k0 = k then rest else (k0, v0) :: dictDel rest k

/-- Python `set.add`: append unless already present. -/
def setAdd (l : List String) (a : String) : List String :=
  if a ∈ l then l else l ++ [a]

/-- Python string comparison `a <= b` on character lists: lexicographic by
code point, a shorter string preceding its extensions. -/
def charsLe : List Char → List Char → Bool
  | [], _ => true
  | _ :: _, [] => false
  | a :: as, b :: bs =>
      if a = b then charsLe as bs else decide (a < b)

/-- Python string comparison `a <= b`. -/
def strLe (a b : String) : Bool := charsLe a.toList b.toList

/-- Python `line.strip()`: remove leading and trailing whitespace. -/
def pyStrip (s : String) : List Char :=
  ((s.toList.dropWhile Char.isWhitespace).reverse.dropWhile
    Char.isWhitespace).reverse

/-- Python `str.split(sep)` for a one-character separator, on the character
list of the stripped line; like Python, an empty input yields one empty
field and consecutive separators yield empty fields. -/
def splitFields : List Char → String → List String
  | [], cur => [cur]
  | c :: rest, cur =>
      if c = '\t' then cur :: splitFields rest "" else splitFields rest (cur.push c)

/-- Python `line.strip().split("\t")`. -/
def tabFields (line : String) : List String :=
  splitFields (pyStrip line) ""

/-! ## PrevalenceSelector — `per_sample_stats_parse` (lines 60–88) -/

/-- Number of tab-separated fields of a stripped line, as produced by
`line.strip().split("\t")`. -/
def numFields (line : String) : Nat :=
  (tabFields line).length

/-- The `sample` and `seed` fields of a per-sample stats line:
`sample, cloud, mass, seed, seed_abundance = line.strip().split("\t")[0:5]`.
Returns `none` (a fatal `ValueError`) when fewer than five fields are
present; fields beyond the fifth are ignored. -/
def sampleSeedFields (line : String) : Option (String × String) :=
  match tabFields line with
  | sample :: _cloud :: _mass :: seed :: _abund :: _ => some (sample, seed)
  | _ => none

/-- Loop state of `per_sample_stats_parse`: the per-seed occurrence counts,
the running number of samples, and the previously seen sample name. -/
structure PSState where
  counts : List (String × Nat)
  nSamples : Nat
  prevSample : Option String
  deriving Repr, DecidableEq

/-- One iteration of the `per_sample_stats_parse` loop (lines 71–81). -/
def perSampleStep (st : PSState) (line : String) : Option PSState :=
  match sampleSeedFields line with
  | none => none
  | some (sample, seed) =>
      match hexIndex seed with
      | none => none
      | some _ =>
          let counts :=
            match dictGet st.counts seed with
            | some v => dictInsert st.counts seed (v + 1)
            | none => dictInsert st.counts seed 1
          if some sample = st.prevSample then
            some { st with counts := counts }
          else
            some { counts := counts, nSamples := st.nSamples + 1,
                   prevSample := some sample }

/-- The whole scanning loop of `per_sample_stats_parse`. -/
def sampleCounts : List String → PSState → Option PSState
  | [], st => some st
  | line :: rest, st =>
      match perSampleStep st line with
      | none => none
      | some st2 => sampleCounts rest st2

/-- Source: `per_sample_stats_parse` (lines 60–88).  Returns the threshold
`percentage * number_of_samples` and the seeds whose occurrence count is at
least the threshold. -/
def perSampleStatsParse (lines : List String) (percentage : ℚ) :
    Option (ℚ × List (String × Nat)) :=
  match sampleCounts lines ⟨[], 0, none⟩ with
  | none => none
  | some st =>
      let threshold := percentage * st.nSamples
      some (threshold, st.counts.filter (fun kv => threshold ≤ (kv.2 : ℚ)))

/-! ## GlobalSeedFilter — `stats_parse` (lines 91–123) -/

/-- One record of the global statistics file,
`cloud, mass, seed, seed_abundance, singletons = line.strip().split("\t")[0:5]`,
with the numeric fields already converted by `int(·)`. -/
structure GlobalStatsRecord where
  cloud : Nat
  mass : Nat
  seed : String
  seedAbundance : Nat
  singletons : Nat
  deriving Repr, DecidableEq

/-- Source: `stats_parse` (lines 104–123).  Scans the records in file order;
stops at the first record whose seed abundance is below the threshold;
otherwise, when the cluster has more than one unique amplicon and enough mass
to host a secondary seed, computes the shard index of the seed (a fatal
`ValueError` on a non-hexadecimal identifier, hence `Option`) and removes the
seed from the candidate map if present.  The mutation of `seeds` in the
source becomes explicit state passing. -/
def statsParse (threshold : ℚ) :
    List GlobalStatsRecord → List (String × Nat) → Option (List (String × Nat))
  | [], seeds => some seeds
  | r :: rest, seeds =>
      if (r.seedAbundance : ℚ) < threshold then some seeds
      else if 1 < r.cloud ∧ 2 * threshold + (r.singletons : ℚ) ≤ (r.mass : ℚ) then
        match hexIndex r.seed with
        | none => none
        | some _ => statsParse threshold rest (dictDel seeds r.seed)
      else statsParse threshold rest seeds

/-- Modelled from the spec: the full-scan variant of the GlobalSeedFilter
that C6 compares `stats_parse` against — it scans every record of the file
and applies the same per-record pruning rule (cloud > 1, mass ≥ 2·threshold +
singletons, seed present in the candidate set), with no early termination. -/
def statsFullScanSpec (threshold : ℚ) :
    List GlobalStatsRecord → List (String × Nat) → List (String × Nat)
  | [], seeds => seeds
  | r :: rest, seeds =>
      if 1 < r.cloud ∧ 2 * threshold + (r.singletons : ℚ) ≤ (r.mass : ℚ) ∧
          (dictGet seeds r.seed).isSome then
        statsFullScanSpec threshold rest (dictDel seeds r.seed)
      else statsFullScanSpec threshold rest seeds

/-! ## MembershipIndexer — `swarms_parse` (lines 126–161) -/

/-- One line of the membership (swarms) file, already tokenized: the
alternating amplicon/abundance tokens produced by the regex split of lines
146–147, as (amplicon, abundance) pairs in line order, the abundances
already converted by `int(·)`; the first pair's amplicon is the cluster's
original seed.  The regex tokenization itself is not at stake in any
claim. -/
abbrev SwarmsLine := List (String × Nat)

/-- Lines 152–154 of the source: for every amplicon of an intersecting
line, in line order, compute its shard index (a fatal `ValueError` on a
non-hexadecimal identifier, hence `Option`) and record its abundance. -/
def swarmsLineAdd :
    SwarmsLine → List (String × Nat) → Option (List (String × Nat))
  | [], m => some m
  | (a, ab) :: rest, m =>
      match hexIndex a with
      | none => none
      | some _ => swarmsLineAdd rest (dictInsert m a ab)

/-- Lines 155–157 of the source: map every common candidate of the line to
the line's original seed, computing each candidate's shard index.  The
Python `for amplicon in common` iterates a set in an order the runtime does
not fix; the model iterates the candidates in the line's first-occurrence
order, which downstream code cannot observe (only the value set of
`global_seeds` is used, at line 169). -/
def globalSeedsAdd (seed : String) :
    List String → List (String × String) → Option (List (String × String))
  | [], m => some m
  | a :: rest, m =>
      match hexIndex a with
      | none => none
      | some _ => globalSeedsAdd seed rest (dictInsert m a seed)

/-- Loop state of `swarms_parse`: the abundance index, the candidate to
original-seed map, and the running `number_of_seeds` counter (an integer,
as Python decrements without clamping). -/
structure SwState where
  swarms : List (String × Nat)
  globalSeeds : List (String × String)
  counter : Int
  deriving Repr, DecidableEq

/-- The per-line loop of `swarms_parse` (lines 144–159): compute the
intersection `common` of the line's amplicons with the candidate set; on an
intersecting line, index every amplicon's abundance and map each common
candidate to the line's seed, and decrement the counter by the size of
`common` (the source decrements before the two inner loops; as the counter
is not read in between, the order is unobservable); after each line, stop
as soon as the counter reaches zero. -/
def swarmsLoop (seedsSet : List String) :
    List SwarmsLine → SwState → Option SwState
  | [], st => some st
  | line :: rest, st =>
      let common := ((line.map Prod.fst).filter (fun a => a ∈ seedsSet)).dedup
      if common = [] then
        if st.counter = 0 then some st else swarmsLoop seedsSet rest st
      else
        match swarmsLineAdd line st.swarms with
        | none => none
        | some sw2 =>
            match globalSeedsAdd (line.headD ("", 0)).1 common st.globalSeeds with
            | none => none
            | some gs2 =>
                let st2 : SwState := ⟨sw2, gs2, st.counter - (common.length : Int)⟩
                if st2.counter = 0 then some st2 else swarmsLoop seedsSet rest st2

/-- Source: `swarms_parse` (lines 126–161).  `seeds_set` is the set of keys
of the candidate map (line 139) and the initial `number_of_seeds` its size
(line 140); returns the abundance index and the candidate to global-seed
map of the clusters that contain candidates. -/
def swarmsParse (lines : List SwarmsLine) (seeds : List (String × Nat)) :
    Option (List (String × Nat) × List (String × String)) :=
  match swarmsLoop ((seeds.map Prod.fst).dedup) lines
      ⟨[], [], (((seeds.map Prod.fst).dedup.length : Nat) : Int)⟩ with
  | none => none
  | some st => some (st.swarms, st.globalSeeds)

/-! ## GenealogyForestBuilder — `struct_parse` (lines 164–220) -/

/-- One line of the merge-edge log,
`father, son, diffs, cluster_id, steps = line.split("\t")`, with `cluster_id`
already converted by `int(·)`; the `diffs` and `steps` fields are never used
by `struct_parse` and are omitted. -/
structure StructLine where
  father : String
  son : String
  clusterId : Nat
  deriving Repr, DecidableEq

/-- The sub-clusters of the cluster currently being carved: a Python
dictionary mapping each sub-cluster root to its member set. -/
abbrev Clusters := List (String × List String)

/-- Loop state of `struct_parse`: the previous cluster id, the flag
`has_a_local_seed` of the current cluster, the sub-clusters of the current
cluster, the list of already-saved cluster dictionaries, and the running
`number_of_seeds` counter (an integer, as Python decrements below zero
without clamping). -/
structure StState where
  prevId : Nat
  flagged : Bool
  clusters : Clusters
  emitted : List Clusters
  counter : Int
  deriving Repr, DecidableEq

/-- Lines 209–212 of the source: scan the sub-clusters in insertion order
for one whose member set contains `father`; add `son` to the first such set
(`break`), or report `none` when no sub-cluster contains `father`. -/
def addToFatherCluster (father son : String) : Clusters → Option Clusters
  | [] => none
  | (k, mems) :: rest =>
      if father ∈ mems then some ((k, setAdd mems son) :: rest)
      else
        match addToFatherCluster father son rest with
        | none => none
        | some rest2 => some ((k, mems) :: rest2)

/-- Lines 213–218 of the source (the `for/else` orphan branch): add `father`
to every sub-cluster whose member set contains `son` (the loop has no
`break`); when no sub-cluster contains `son` either, the edge is silently
dropped and the dictionary is returned unchanged. -/
def orphanAttach (father son : String) (cs : Clusters) : Clusters :=
  cs.map (fun kv => if son ∈ kv.2 then (kv.1, setAdd kv.2 father) else kv)

/-- Lines 181–191 of the source: on a change of cluster id, save the
previous cluster dictionary (if non-empty), remember the new id, flag the
new cluster when the father of its first line is a known global seed, and
initialize its dictionary. -/
def clusterInit (globalSeedsSet : List String) (l : StructLine) (st : StState) :
    StState :=
  let flagged := l.father ∈ globalSeedsSet
  { prevId := l.clusterId
    flagged := flagged
    clusters := if flagged then [(l.father, [l.father])] else []
    emitted := if st.clusters ≠ [] then st.emitted ++ [st.clusters] else st.emitted
    counter := st.counter }

/-- The per-line loop of `struct_parse` (lines 177–218), including the
early-termination `break` once `number_of_seeds` reaches zero and the fatal
shard-index computation on each son of a flagged cluster. -/
def structLoop (seeds : List (String × Nat)) (globalSeedsSet : List String) :
    List StructLine → StState → Option StState
  | [], st => some st
  | l :: rest, st =>
      let st1 := if l.clusterId ≠ st.prevId then clusterInit globalSeedsSet l st
                 else st
      if st1.counter = 0 then some st1
      else if st1.flagged = false then structLoop seeds globalSeedsSet rest st1
      else
        match hexIndex l.son with
        | none => none
        | some _ =>
            if (dictGet seeds l.son).isSome then
              structLoop seeds globalSeedsSet rest
                { st1 with counter := st1.counter - 1,
                           clusters := dictInsert st1.clusters l.son [l.son] }
            else
              let cs :=
                match addToFatherCluster l.father l.son st1.clusters with
                | some cs2 => cs2
                | none => orphanAttach l.father l.son st1.clusters
              structLoop seeds globalSeedsSet rest { st1 with clusters := cs }

/-- Source: `struct_parse` (lines 164–220).  `seeds` is the pruned local
candidate map, `globalSeedsSet` the set of values of the `global_seeds`
dictionaries (line 169).  The initial `number_of_seeds` is the total number
of candidates (line 170) and `previous_cluster_id` starts at 0 (line 171).
The function returns `new_clusters`; note that the cluster dictionary still
in progress when the loop ends (at end of file or at the early break) is
never appended. -/
def structParse (lines : List StructLine) (seeds : List (String × Nat))
    (globalSeedsSet : List String) : Option (List Clusters) :=
  match structLoop seeds globalSeedsSet lines
      ⟨0, false, [], [], (seeds.length : Int)⟩ with
  | none => none
  | some st => some st.emitted

/-! ## SubclusterFinalizer — `add_abundance_values` (lines 223–248) -/

theorem charsLe_refl : ∀ as : List Char, charsLe as as = true
  | [] => rfl
  | a :: as => by simp [charsLe, charsLe_refl as]

theorem charsLe_total : ∀ as bs : List Char, charsLe as bs = true ∨ charsLe bs as = true
  | [], _ => Or.inl rfl
  | _ :: _, [] => Or.inr rfl
  | a :: as, b :: bs => by
      by_cases hab : a = b
      · subst hab
        simpa [charsLe] using charsLe_total as bs
      · rcases lt_or_gt_of_ne hab with h | h
        · exact Or.inl (by simp [charsLe, hab, h])
        · exact Or.inr (by simp [charsLe, Ne.symm hab, h])

theorem charsLe_trans : ∀ as bs cs : List Char, charsLe as bs = true →
    charsLe bs cs = true → charsLe as cs = true
  | [], _, _, _, _ => rfl
  | a :: as, [], cs, hab, _ => by simp [charsLe] at hab
  | a :: as, b :: bs, [], _, hbc => by simp [charsLe] at hbc
  | a :: as, b :: bs, c :: cs, hab, hbc => by
      by_cases h1 : a = b
      · subst h1
        simp only [charsLe, if_pos rfl] at hab
        by_cases h2 : a = c
        · subst h2
          simp only [charsLe, if_pos rfl] at hbc ⊢
          exact charsLe_trans as bs cs hab hbc
        · simp only [charsLe, if_neg h2] at hbc ⊢
          exact hbc
      · simp only [charsLe, if_neg h1, decide_eq_true_eq] at hab
        by_cases h2 : b = c
        · have h3 : a ≠ c := h2 ▸ h1
          have h4 : a < c := h2 ▸ hab
          simp [charsLe, h3, h4]
        · simp only [charsLe, if_neg h2, decide_eq_true_eq] at hbc
          have h4 : a < c := hab.trans hbc
          have h3 : a ≠ c := ne_of_lt h4
          simp [charsLe, h3, h4]

theorem charsLe_antisymm : ∀ as bs : List Char, charsLe as bs = true →
    charsLe bs as = true → as = bs
  | [], [], _, _ => rfl
  | [], _ :: _, _, hba => by simp [charsLe] at hba
  | _ :: _, [], hab, _ => by simp [charsLe] at hab
  | a :: as, b :: bs, hab, hba => by
      by_cases h1 : a = b
      · subst h1
        simp only [charsLe, if_pos rfl] at hab hba
        rw [charsLe_antisymm as bs hab hba]
      · simp only [charsLe, if_neg h1, decide_eq_true_eq] at hab
        simp only [charsLe, if_neg (Ne.symm h1), decide_eq_true_eq] at hba
        exact absurd (hab.trans hba) (lt_irrefl _)

/-- The order of `swarm.sort(key = lambda x: (-x[1], x[0]))` (line 239):
decreasing abundance first, ties broken by increasing amplicon name. -/
def swarmLE (a b : String × Nat) : Prop :=
  b.2 < a.2 ∨ (a.2 = b.2 ∧ strLe a.1 b.1 = true)

instance : DecidableRel swarmLE := fun a b => by
  unfold swarmLE; infer_instance

instance : IsTotal (String × Nat) swarmLE where
  total a b := by
    rcases Nat.lt_trichotomy a.2 b.2 with h | h | h
    · exact Or.inr (Or.inl h)
    · rcases charsLe_total a.1.toList b.1.toList with h1 | h1
      · exact Or.inl (Or.inr ⟨h, h1⟩)
      · exact Or.inr (Or.inr ⟨h.symm, h1⟩)
    · exact Or.inl (Or.inl h)

instance : IsTrans (String × Nat) swarmLE where
  trans a b c hab hbc := by
    rcases hab with h | ⟨he, h1⟩
    · rcases hbc with h2 | ⟨he2, _⟩
      · exact Or.inl (h2.trans h)
      · exact Or.inl (he2 ▸ h)
    · rcases hbc with h2 | ⟨he2, h12⟩
      · exact Or.inl (he ▸ h2)
      · exact Or.inr ⟨he.trans he2, charsLe_trans _ _ _ h1 h12⟩

instance : IsAntisymm (String × Nat) swarmLE where
  antisymm a b hab hba := by
    rcases hab with h | ⟨he, h1⟩
    · rcases hba with h2 | ⟨he2, _⟩
      · exact absurd (h.trans h2) (lt_irrefl _)
      · exact absurd (he2 ▸ h) (lt_irrefl _)
    · rcases hba with h2 | ⟨_, h12⟩
      · exact absurd (he ▸ h2) (lt_irrefl _)
      · have hs : a.1 = b.1 := by
          have := charsLe_antisymm _ _ h1 h12
          exact String.ext (by simpa [String.toList] using this)
        exact Prod.ext hs he

/-- Line 239 of the source: a stable sort of the accumulated swarm by
decreasing abundance, ties by increasing name. -/
def sortSwarm (l : List (String × Nat)) : List (String × Nat) :=
  List.insertionSort swarmLE l

/-- Lines 232–235 of the source: attach to each member its recorded
abundance, `swarms[int(amplicon[0:2], 16)][amplicon]`; a non-hexadecimal
identifier (`ValueError`) or a member absent from the abundance index
(`KeyError`) aborts the run.  The single-map abstraction of the 256 sharded
dictionaries is the `lookup` argument. -/
def attachAbundances (lookup : String → Option Nat) :
    List String → Option (List (String × Nat))
  | [] => some []
  | a :: rest =>
      match hexIndex a with
      | none => none
      | some _ =>
          match lookup a with
          | none => none
          | some ab =>
              match attachAbundances lookup rest with
              | none => none
              | some tail => some ((a, ab) :: tail)

/-- The cluster dictionaries after finalization: each sub-cluster root maps
to its sorted swarm of (amplicon, abundance) pairs. -/
abbrev SwarmClusters := List (String × List (String × Nat))

/-- Lines 230–246 of the source, for one sub-cluster: build the swarm in the
given enumeration order of the member set, sort it, elect the first element
as seed, and re-key the copy under the new seed when it differs from the
original key (`del` of the old key followed by assignment, which appends the
new key).  An empty swarm would raise `IndexError` at `swarm[0]`. -/
def finalizeCluster (lookup : String → Option Nat) (key : String)
    (mems : List String) (copy : SwarmClusters) : Option SwarmClusters :=
  match attachAbundances lookup mems with
  | none => none
  | some swarm0 =>
      match sortSwarm swarm0 with
      | [] => none
      | s :: rest =>
          if s.1 ≠ key then
            some (dictInsert (dictDel copy key) s.1 (s :: rest))
          else
            some (dictInsert copy key (s :: rest))

/-- The inner loop of `add_abundance_values` over one cluster dictionary
(`for cluster in super_cluster:`), iterating the original keys in insertion
order while mutating the copy. -/
def finalizeSuperCluster (lookup : String → Option Nat) :
    Clusters → SwarmClusters → Option SwarmClusters
  | [], copy => some copy
  | (key, mems) :: rest, copy =>
      match finalizeCluster lookup key mems copy with
      | none => none
      | some copy2 => finalizeSuperCluster lookup rest copy2

/-- Source: `add_abundance_values` (lines 223–248).  The deep copy that the
loop starts from has the same keys in the same order as the original; its
values are never read before being overwritten (every key is visited and
reassigned), so they are initialized to `[]`. -/
def addAbundanceValues (lookup : String → Option Nat) :
    List Clusters → Option (List SwarmClusters)
  | [] => some []
  | super :: rest =>
      match finalizeSuperCluster lookup super
          (super.map (fun kv => (kv.1, ([] : List (String × Nat))))) with
      | none => none
      | some sc =>
          match addAbundanceValues lookup rest with
          | none => none
          | some tail => some (sc :: tail)

/-! ## Output stages — `per_cluster_stats` (251–290), `per_cluster_swarms`
(293–304), `fasta_parse` (307–348) -/

/-- One record of the updated statistics file (lines 273–279): number of
unique amplicons, total abundance, seed label, seed abundance, number of
singletons, and the two constant `"0"` columns. -/
structure Stat where
  uniques : Nat
  total : Nat
  seed : String
  seedAbundance : Nat
  singletons : Nat
  col6 : String
  col7 : String
  deriving Repr, DecidableEq

/-- Lines 258–279: the statistics record of one finalized sub-cluster.  The
seed abundance is the first pair of the stored swarm (reachable swarms are
never empty: `finalizeCluster` rejects an empty swarm, and Python would raise
`IndexError` there). -/
def statOfCluster (key : String) (swarm : List (String × Nat)) : Stat :=
  { uniques := swarm.length
    total := (swarm.map (fun t => t.2)).sum
    seed := key
    seedAbundance := (swarm.headD ("", 0)).2
    singletons := (swarm.filter (fun t => t.2 = 1)).length
    col6 := "0"
    col7 := "0" }

/-- The order of the first sort, `new_stats.sort(key=operator.itemgetter(2))`
(line 284): increasing seed label. -/
def statSeedLE (a b : Stat) : Prop := strLe a.seed b.seed = true

instance : DecidableRel statSeedLE := fun a b => by
  unfold statSeedLE; infer_instance

/-- The order of the second, stable sort,
`new_stats.sort(key=operator.itemgetter(1, 0), reverse=True)` (line 285):
decreasing (total abundance, unique-amplicon count) lexicographically, with
ties left in the order the first sort produced. -/
def statTotalGE (a b : Stat) : Prop :=
  b.total < a.total ∨ (a.total = b.total ∧ (b.uniques < a.uniques ∨ a.uniques = b.uniques))

instance : DecidableRel statTotalGE := fun a b => by
  unfold statTotalGE; infer_instance

/-- Source: `per_cluster_stats` (lines 251–290): collect one record per
finalized sub-cluster, then sort by increasing seed label and re-sort stably
by decreasing (total abundance, unique count). -/
def perClusterStats (ncs : List SwarmClusters) : List Stat :=
  List.insertionSort statTotalGE
    (List.insertionSort statSeedLE
      (ncs.flatMap (fun super => super.map (fun kv => statOfCluster kv.1 kv.2))))

/-- Line 288 of the source: one output line of the updated statistics file. -/
def statLine (t : Stat) : String :=
  String.intercalate "\t"
    [toString t.uniques, toString t.total, t.seed, toString t.seedAbundance,
     toString t.singletons, t.col6, t.col7]

/-- The updated statistics file, one line per record. -/
def statLines (stats : List Stat) : List String := stats.map statLine

/-- Line 301 of the source: the membership line of one sub-cluster,
space-separated `amplicon;size=abundance` tokens in stored swarm order. -/
def swarmLine (swarm : List (String × Nat)) : String :=
  String.intercalate " " (swarm.map (fun t => t.1 ++ ";size=" ++ toString t.2))

/-- Source: `per_cluster_swarms` (lines 293–304): one membership line per
finalized sub-cluster, in dictionary order. -/
def perClusterSwarms (ncs : List SwarmClusters) : List String :=
  ncs.flatMap (fun super => super.map (fun kv => swarmLine kv.2))

/-- A line of the FASTA input: a header `>amplicon;size=abundance` (already
split into its amplicon and numeric abundance) or a sequence line (already
stripped).  The textual header parsing is not at stake in any claim. -/
inductive FastaLine where
  | header (amplicon : String) (abundance : Nat)
  | seq (s : String)
  deriving Repr, DecidableEq

/-- The target-amplicon dictionary of `fasta_parse`: amplicon to the Python
list `[abundance] ++ appended sequence lines` (lines 317–319, 334). -/
abbrev FastaMap := List (String × (Nat × List String))

/-- Lines 317–319 of the source: one dictionary entry per statistics record,
`fasta[int(t[2][0:2], 16)][t[2]] = [t[1]]`. -/
def fastaIndexOfStats : List Stat → FastaMap → Option FastaMap
  | [], m => some m
  | t :: rest, m =>
      match hexIndex t.seed with
      | none => none
      | some _ => fastaIndexOfStats rest (dictInsert m t.seed (t.total, []))

/-- Line 320 of the source, `min([t[3] for t in new_stats])`: `min` of an
empty list raises `ValueError`. -/
def minSeedAbundance (stats : List Stat) : Option Nat :=
  match stats.map (fun t => t.seedAbundance) with
  | [] => none
  | x :: xs => some (xs.foldl Nat.min x)

/-- Lines 324–334 of the source: stream the FASTA lines, stopping at the
first header whose abundance is below the minimum; append each sequence line
to the entry of the last seen header amplicon when that amplicon is a
target.  A sequence line before any header references the unbound variable
`amplicon` (a fatal `NameError`). -/
def fastaScan (minAb : Nat) :
    List FastaLine → Option String → FastaMap → Option FastaMap
  | [], _, m => some m
  | FastaLine.header a ab :: rest, _, m =>
      match hexIndex a with
      | none => none
      | some _ =>
          if ab < minAb then some m else fastaScan minAb rest (some a) m
  | FastaLine.seq s :: rest, cur, m =>
      match cur with
      | none => none
      | some a =>
          match dictGet m a with
          | some (ab, seqs) =>
              fastaScan minAb rest (some a) (dictInsert m a (ab, seqs ++ [s]))
          | none => fastaScan minAb rest (some a) m

/-- Lines 336–346 of the source: one output record per statistics entry; the
stored Python list must unpack as exactly `[abundance, sequence]`, otherwise
the run exits with status -1; a missing key is a fatal `KeyError`. -/
def fastaOut (m : FastaMap) : List Stat → Option (List String)
  | [] => some []
  | t :: rest =>
      match hexIndex t.seed with
      | none => none
      | some _ =>
          match dictGet m t.seed with
          | none => none
          | some (ab, seqs) =>
              match seqs with
              | [s] =>
                  match fastaOut m rest with
                  | none => none
                  | some tail =>
                      some ((">" ++ t.seed ++ ";size=" ++ toString ab
                             ++ "\n" ++ s) :: tail)
              | _ => none

/-- Source: `fasta_parse` (lines 307–348), producing the updated
representative-sequence records. -/
def fastaParse (lines : List FastaLine) (stats : List Stat) :
    Option (List String) :=
  match fastaIndexOfStats stats [] with
  | none => none
  | some m0 =>
      match minSeedAbundance stats with
      | none => none
      | some minAb =>
          match fastaScan minAb lines none m0 with
          | none => none
          | some m =>
              match fastaOut m stats with
              | none => none
              | some out => some out

/-- The output half of `main` (lines 378–387): finalize the carved clusters
and produce the updated statistics lines, membership lines and
representative-sequence records. -/
def pipelineFinalize (lookup : String → Option Nat) (fastaLines : List FastaLine)
    (ncs : List Clusters) : Option (List String × List String × List String) :=
  match addAbundanceValues lookup ncs with
  | none => none
  | some withAb =>
      let stats := perClusterStats withAb
      match fastaParse fastaLines stats with
      | none => none
      | some reps => some (statLines stats, perClusterSwarms withAb, reps)

/-- The cleaving engine from the merge-edge log to the three outputs
(lines 376–387 of `main`). -/
def cleaverRun (structLines : List StructLine) (seeds : List (String × Nat))
    (globalSeedsSet : List String) (lookup : String → Option Nat)
    (fastaLines : List FastaLine) :
    Option (List String × List String × List String) :=
  match structParse structLines seeds globalSeedsSet with
  | none => none
  | some ncs => pipelineFinalize lookup fastaLines ncs

/-! ## Auxiliary notions used by the theorem statements -/

/-- The `seed` field (fourth tab-separated field) of a per-sample stats
line. -/
def seedField (line : String) : String :=
  (tabFields line).getD 3 ""

/-- Two sub-cluster entries with the same root whose member sets are
enumerated in possibly different orders (the Python `set` iteration order is
not reproducible across runs). -/
def EntryPerm (e1 e2 : String × List String) : Prop :=
  e1.1 = e2.1 ∧ e1.2.Perm e2.2

/-- Two runs' views of one cluster dictionary: same roots in the same order,
member sets enumerated in possibly different orders. -/
def ClustersPerm (c1 c2 : Clusters) : Prop :=
  List.Forall₂ EntryPerm c1 c2

/-- Two runs' views of the carved cluster list. -/
def ClustersListPerm (n1 n2 : List Clusters) : Prop :=
  List.Forall₂ ClustersPerm n1 n2

/-- Relates two `Option`al lists when both are aborts or both succeed with
permuted results. -/
def OptionPerm {α : Type} : Option (List α) → Option (List α) → Prop
  | none, none => True
  | some l1, some l2 => l1.Perm l2
  | _, _ => False

/-! ## Helper lemmas -/

theorem swarmLE_refl (a : String × Nat) : swarmLE a a :=
  Or.inr ⟨rfl, charsLe_refl _⟩

theorem sortSwarm_sorted (l : List (String × Nat)) :
    List.Sorted swarmLE (sortSwarm l) :=
  List.sorted_insertionSort swarmLE l

theorem sortSwarm_perm (l : List (String × Nat)) : (sortSwarm l).Perm l :=
  List.perm_insertionSort swarmLE l

/-- The sort of line 239 is canonical: any two enumerations of the same
multiset of (amplicon, abundance) pairs sort to the same list, because the
sort order is antisymmetric on pairs. -/
theorem sortSwarm_eq_of_perm {l1 l2 : List (String × Nat)} (h : l1.Perm l2) :
    sortSwarm l1 = sortSwarm l2 :=
  List.eq_of_perm_of_sorted
    ((sortSwarm_perm l1).trans (h.trans (sortSwarm_perm l2).symm))
    (sortSwarm_sorted l1) (sortSwarm_sorted l2)

theorem optionPerm_refl {α : Type} (o : Option (List α)) : OptionPerm o o := by
  cases o <;> simp [OptionPerm]

/-- Attaching abundances commutes with permuting the member enumeration:
both runs abort together, and on success the resulting swarms are
permutations of each other. -/
theorem attachAbundances_perm (lk : String → Option Nat)
    {l1 l2 : List String} (h : l1.Perm l2) :
    OptionPerm (attachAbundances lk l1) (attachAbundances lk l2) := by
  induction h with
  | nil => simp [attachAbundances, OptionPerm]
  | cons a h ih =>
      simp only [attachAbundances]
      cases hhex : hexIndex a with
      | none => simp [OptionPerm]
      | some i =>
          cases hlk : lk a with
          | none => simp [OptionPerm]
          | some ab =>
              revert ih
              cases attachAbundances lk _ with
              | none =>
                  cases attachAbundances lk _ with
                  | none => intro ih; simp [OptionPerm]
                  | some t2 => intro ih; simp [OptionPerm] at ih
              | some t1 =>
                  cases attachAbundances lk _ with
                  | none => intro ih; simp [OptionPerm] at ih
                  | some t2 =>
                      intro ih
                      simp only [OptionPerm] at ih ⊢
                      exact ih.cons (a, ab)
  | swap a b l =>
      simp only [attachAbundances]
      cases hb : hexIndex b with
      | none =>
          cases ha : hexIndex a
          · simp [OptionPerm]
          · cases lk a
            · simp [OptionPerm]
            · cases attachAbundances lk l <;> simp [OptionPerm]
      | some ib =>
          cases hlb : lk b with
          | none =>
              cases ha : hexIndex a
              · simp [OptionPerm]
              · cases lk a
                · simp [OptionPerm]
                · cases attachAbundances lk l <;> simp [OptionPerm]
          | some ab =>
              cases ha : hexIndex a with
              | none => simp [OptionPerm]
              | some ia =>
                  cases hla : lk a with
                  | none => simp [OptionPerm]
                  | some aa =>
                      cases attachAbundances lk l with
                      | none => simp [OptionPerm]
                      | some t => simpa [OptionPerm] using List.Perm.swap _ _ _
  | trans h12 h23 ih1 ih2 =>
      revert ih1 ih2
      cases attachAbundances lk _ with
      | none =>
          cases attachAbundances lk _ with
          | none => cases attachAbundances lk _ <;> simp [OptionPerm]
          | some t2 => cases attachAbundances lk _ <;> simp [OptionPerm]
      | some t1 =>
          cases attachAbundances lk _ with
          | none => cases attachAbundances lk _ <;> simp [OptionPerm]
          | some t2 =>
              cases attachAbundances lk _ with
              | none => simp [OptionPerm]
              | some t3 => intro ih1 ih2; exact ih1.trans ih2

/-- Finalizing one sub-cluster is insensitive to the enumeration order of
its member set. -/
theorem finalizeCluster_congr (lk : String → Option Nat) {m1 m2 : List String}
    (h : m1.Perm m2) (k : String) (copy : SwarmClusters) :
    finalizeCluster lk k m1 copy = finalizeCluster lk k m2 copy := by
  have hp := attachAbundances_perm lk h
  cases h1 : attachAbundances lk m1 with
  | none =>
      cases h2 : attachAbundances lk m2 with
      | none => simp only [finalizeCluster, h1, h2]
      | some t2 => rw [h1, h2] at hp; simp [OptionPerm] at hp
  | some t1 =>
      cases h2 : attachAbundances lk m2 with
      | none => rw [h1, h2] at hp; simp [OptionPerm] at hp
      | some t2 =>
          rw [h1, h2] at hp
          simp only [OptionPerm] at hp
          simp only [finalizeCluster, h1, h2, sortSwarm_eq_of_perm hp]

/-- Finalizing one cluster dictionary is insensitive to the enumeration
orders of its member sets. -/
theorem finalizeSuperCluster_congr (lk : String → Option Nat)
    {c1 c2 : Clusters} (h : ClustersPerm c1 c2) :
    ∀ copy, finalizeSuperCluster lk c1 copy = finalizeSuperCluster lk c2 copy := by
  induction h with
  | nil => intro copy; rfl
  | @cons a b l1 l2 he ht ih =>
      intro copy
      obtain ⟨hk, hm⟩ := he
      have hfc : finalizeCluster lk a.1 a.2 copy = finalizeCluster lk b.1 b.2 copy := by
        rw [hk]; exact finalizeCluster_congr lk hm _ _
      simp only [finalizeSuperCluster, hfc]
      cases finalizeCluster lk b.1 b.2 copy with
      | none => rfl
      | some copy2 => exact ih copy2

/-- `add_abundance_values` is insensitive to the set-enumeration orders: two
runs seeing the same carved clusters (with member sets possibly enumerated
differently) produce identical results, aborting together. -/
theorem addAbundanceValues_congr (lk : String → Option Nat)
    {n1 n2 : List Clusters} (h : ClustersListPerm n1 n2) :
    addAbundanceValues lk n1 = addAbundanceValues lk n2 := by
  induction h with
  | nil => rfl
  | cons he ht ih =>
      simp only [addAbundanceValues]
      have hkeys : ∀ {c1 c2 : Clusters}, ClustersPerm c1 c2 →
          c1.map (fun kv => (kv.1, ([] : List (String × Nat)))) =
          c2.map (fun kv => (kv.1, ([] : List (String × Nat)))) := by
        intro c1 c2 hc
        induction hc with
        | nil => rfl
        | cons he2 ht2 ih2 => simp only [List.map_cons, he2.1, ih2]
      rw [← hkeys he, ← finalizeSuperCluster_congr lk he]
      cases finalizeSuperCluster lk _ _ with
      | none => rfl
      | some sc => rw [ih]

/-- Evaluation of `add_abundance_values` on a single one-sub-cluster
dictionary: the result is keyed by the head of the sorted swarm. -/
theorem addAbundanceValues_single (lk : String → Option Nat) (k : String)
    (mems : List String) (sw : List (String × Nat)) (s : String × Nat)
    (rest : List (String × Nat)) (hatt : attachAbundances lk mems = some sw)
    (hsort : sortSwarm sw = s :: rest) :
    addAbundanceValues lk [[(k, mems)]] = some [[(s.1, s :: rest)]] := by
  simp only [addAbundanceValues, finalizeSuperCluster, finalizeCluster, List.map,
    hatt, hsort]
  by_cases hk : s.1 = k
  · simp [hk, dictInsert]
  · simp [hk, dictInsert, dictDel]

theorem sampleCounts_append (l1 l2 : List String) (st : PSState) :
    sampleCounts (l1 ++ l2) st =
      match sampleCounts l1 st with
      | none => none
      | some st2 => sampleCounts l2 st2 := by
  induction l1 generalizing st with
  | nil => rfl
  | cons line rest ih =>
      simp only [List.cons_append, sampleCounts]
      cases perSampleStep st line with
      | none => rfl
      | some st2 => exact ih st2

theorem sampleSeedFields_of_numFields {line : String} (h : 5 ≤ numFields line) :
    sampleSeedFields line =
      some ((tabFields line).getD 0 "", seedField line) := by
  unfold numFields at h
  unfold sampleSeedFields seedField
  match hs : tabFields line with
  | [] => rw [hs] at h; simp at h
  | [a] => rw [hs] at h; simp at h
  | [a, b] => rw [hs] at h; simp at h
  | [a, b, c] => rw [hs] at h; simp at h
  | [a, b, c, d] => rw [hs] at h; simp at h
  | a :: b :: c :: d :: e :: tail => simp

theorem sampleSeedFields_none {line : String} (h : numFields line < 5) :
    sampleSeedFields line = none := by
  unfold numFields at h
  unfold sampleSeedFields
  match hs : tabFields line with
  | [] => simp
  | [a] => simp
  | [a, b] => simp
  | [a, b, c] => simp
  | [a, b, c, d] => simp
  | a :: b :: c :: d :: e :: tail => rw [hs] at h; simp at h; omega

theorem dictGet_dictDel {V : Type} (m : List (String × V)) (k s : String)
    (v : V) (h : dictGet (dictDel m k) s = some v) :
    ∃ v2, dictGet m s = some v2 := by
  induction m with
  | nil => simp [dictDel, dictGet] at h
  | cons kv rest ih =>
      obtain ⟨k0, v0⟩ := kv
      simp only [dictDel] at h
      by_cases hk : k0 = k
      · rw [if_pos hk] at h
        simp only [dictGet]
        by_cases hs : k0 = s
        · exact ⟨v0, if_pos hs⟩
        · rw [if_neg hs]
          exact ⟨v, h⟩
      · rw [if_neg hk] at h
        simp only [dictGet] at h ⊢
        by_cases hs : k0 = s
        · exact ⟨v0, if_pos hs⟩
        · rw [if_neg hs] at h ⊢
          exact ih h

theorem dictDel_of_get_none {V : Type} {m : List (String × V)} {k : String}
    (h : dictGet m k = none) : dictDel m k = m := by
  induction m with
  | nil => rfl
  | cons kv rest ih =>
      obtain ⟨k0, v0⟩ := kv
      simp only [dictGet] at h
      by_cases hk : k0 = k
      · rw [if_pos hk] at h; cases h
      · rw [if_neg hk] at h
        simp only [dictDel, if_neg hk, ih h]

/-! ## Claims -/

/-- C1 (partition completeness — refuted on the code, evaluating
`struct_parse` at a failing input).  The cluster with id 1 is flagged (its
original seed `aa` is a known global seed) and its full member set is
`{aa, bb}`, with `bb` a surviving local-seed candidate.  Processing the
single merge edge puts `aa` and `bb` each in a sub-cluster and decrements
`number_of_seeds` to zero, but `struct_parse` appends the in-progress
cluster dictionary to `new_clusters` only upon seeing a later line with a
different cluster id, and no such line exists: the function returns an empty
list.  No SubClusters at all are emitted for this flagged cluster, so the
union of the emitted member sets is empty and cannot equal the member set
`{aa, bb}`: amplicons are lost, contradicting the claimed partition
completeness. -/
theorem c1_partition_completeness_failure :
    structParse [⟨"aa", "bb", 1⟩] [("bb", 1)] ["aa"] = some [] := by rfl

/-- C2 (unattachable edges are fatal — refuted on the code, evaluating
`struct_parse` at a failing input).  In flagged cluster 1 the second edge
(father `cc`, son `dd`) satisfies: no sub-cluster contains `cc` and none
contains `dd`.  The claim says the run must abort with a fatal
internal-consistency error.  Instead the `for/else` of lines 208–218 falls
through: the run completes normally (`some`, not the `none` that models an
abort), emitting the cluster with the edge silently dropped — neither `cc`
nor `dd` appears in any sub-cluster. -/
theorem c2_unattachable_edge_dropped :
    structParse [⟨"aa", "bb", 1⟩, ⟨"cc", "dd", 1⟩, ⟨"ee", "ee", 2⟩]
      [("ff", 1)] ["aa"] = some [[("aa", ["aa", "bb"])]] := by rfl

/-- C3 (end-to-end example — refuted on the code, evaluating the engine at
the spec's own example).  Amplicons: A=aa(100), B=bb(40), C=cc(40), D=dd(5),
E=ee(1); merge log A←B, B←C, A←D, D←E in cluster 1; B is the only surviving
local candidate, and A is the (global) seed of the cluster.  The claim
expects two emitted SubClusters.  First conjunct: `struct_parse` emits
nothing — after the edge (A, B) locates candidate B, `number_of_seeds`
reaches zero and the `break` at lines 193–195 fires on the very next line of
the same cluster, discarding the in-progress cluster dictionary (it is only
saved upon reaching a line of a different cluster).  Second conjunct: the
whole engine run on this input aborts (`min([t[3] for t in new_stats])` at
line 320 raises `ValueError` on the empty statistics), rather than emitting
the two expected SubClusters.  Third conjunct: the expected output — exactly
the two SubClusters {A, D, E} (seed A, abundance 106, 1 singleton) and
{B, C} (seed B, abundance 80, 0 singletons), sorted by decreasing total
abundance — appears only on a modified input in which a sentinel line of a
second cluster follows and an extra candidate (`ff`) is never found, keeping
the counter positive; this confirms that the replay logic itself matches the
example and that the loss is caused by the early break and the missing final
flush. -/
theorem c3_end_to_end_example_failure :
    structParse
        [⟨"aa", "bb", 1⟩, ⟨"bb", "cc", 1⟩, ⟨"aa", "dd", 1⟩, ⟨"dd", "ee", 1⟩]
        [("bb", 1)] ["aa"] = some [] ∧
    cleaverRun
        [⟨"aa", "bb", 1⟩, ⟨"bb", "cc", 1⟩, ⟨"aa", "dd", 1⟩, ⟨"dd", "ee", 1⟩]
        [("bb", 1)] ["aa"]
        (fun s => if s = "aa" then some 100 else if s = "bb" then some 40
          else if s = "cc" then some 40 else if s = "dd" then some 5
          else if s = "ee" then some 1 else none) [] = none ∧
    ((structParse
        [⟨"aa", "bb", 1⟩, ⟨"bb", "cc", 1⟩, ⟨"aa", "dd", 1⟩, ⟨"dd", "ee", 1⟩,
         ⟨"ee", "ee", 2⟩]
        [("bb", 1), ("ff", 1)] ["aa"]).bind
      (addAbundanceValues
        (fun s => if s = "aa" then some 100 else if s = "bb" then some 40
          else if s = "cc" then some 40 else if s = "dd" then some 5
          else if s = "ee" then some 1 else none))).map
      (fun n => (statLines (perClusterStats n), perClusterSwarms n)) =
    some (["3\t106\taa\t100\t1\t0\t0", "2\t80\tbb\t40\t0\t0\t0"],
          ["aa;size=100 dd;size=5 ee;size=1", "bb;size=40 cc;size=40"]) :=
  ⟨rfl, rfl, rfl⟩

/-- C4 (seed election and member ordering — confirmed).  For any sub-cluster
whose accumulated swarm is `sw` (in any enumeration order of the member
set), the sorted swarm of line 239: is sorted by strictly decreasing
abundance with ties broken by ascending lexicographic amplicon id (the order
`swarmLE`); is a permutation of the accumulated swarm; has a first member
below every member in that order; is identical for every other enumeration
order of the same member set; keys the finalized sub-cluster — its first
member is the elected seed; and the emitted membership line lists the
`amplicon;size=abundance` tokens in exactly that order. -/
theorem c4_seed_election_and_ordering (lk : String → Option Nat) (k : String)
    (mems : List String) (sw : List (String × Nat))
    (hatt : attachAbundances lk mems = some sw) (hne : sw ≠ []) :
    ∃ s rest, sortSwarm sw = s :: rest ∧
      List.Sorted swarmLE (s :: rest) ∧
      (s :: rest).Perm sw ∧
      (∀ x ∈ sw, swarmLE s x) ∧
      (∀ mems2, mems2.Perm mems → ∃ sw2, attachAbundances lk mems2 = some sw2 ∧
        sortSwarm sw2 = s :: rest) ∧
      addAbundanceValues lk [[(k, mems)]] = some [[(s.1, s :: rest)]] ∧
      perClusterSwarms [[(s.1, s :: rest)]] = [swarmLine (s :: rest)] := by
  have hperm0 : (sortSwarm sw).Perm sw := sortSwarm_perm sw
  match hs : sortSwarm sw with
  | [] =>
      rw [hs] at hperm0
      exact absurd (hperm0.symm.eq_nil) hne
  | s :: rest =>
      rw [hs] at hperm0
      have hsorted : List.Sorted swarmLE (s :: rest) := hs ▸ sortSwarm_sorted sw
      refine ⟨s, rest, rfl, hsorted, hperm0, ?_, ?_, ?_, ?_⟩
      · intro x hx
        have hx2 : x ∈ s :: rest := hperm0.symm.mem_iff.mp hx
        rcases List.mem_cons.mp hx2 with he | hr
        · exact he ▸ swarmLE_refl s
        · exact (List.sorted_cons.mp hsorted).1 x hr
      · intro mems2 h2
        have hp := attachAbundances_perm lk h2
        rw [hatt] at hp
        cases h3 : attachAbundances lk mems2 with
        | none => rw [h3] at hp; simp [OptionPerm] at hp
        | some sw2 =>
            rw [h3] at hp
            simp only [OptionPerm] at hp
            exact ⟨sw2, rfl, (sortSwarm_eq_of_perm hp).trans hs⟩
      · exact addAbundanceValues_single lk k mems sw s rest hatt hs
      · rfl

/-- C4 witness: the theorem applied to the sub-cluster with root `ab` and
members enumerated as `[aa, ab]`, with abundances aa ↦ 5 and ab ↦ 7; the
sorted swarm is `[(ab, 7), (aa, 5)]` and the elected seed is `ab`. -/
theorem c4_seed_election_and_ordering_witness :
    ∃ s rest, sortSwarm [("aa", 5), ("ab", 7)] = s :: rest ∧
      List.Sorted swarmLE (s :: rest) ∧
      (s :: rest).Perm [("aa", 5), ("ab", 7)] ∧
      (∀ x ∈ [("aa", 5), ("ab", 7)], swarmLE s x) ∧
      (∀ mems2, mems2.Perm ["aa", "ab"] →
        ∃ sw2, attachAbundances
            (fun s => if s = "aa" then some 5 else if s = "ab" then some 7
              else none) mems2 = some sw2 ∧
          sortSwarm sw2 = s :: rest) ∧
      addAbundanceValues
        (fun s => if s = "aa" then some 5 else if s = "ab" then some 7
          else none) [[("ab", ["aa", "ab"])]] = some [[(s.1, s :: rest)]] ∧
      perClusterSwarms [[(s.1, s :: rest)]] = [swarmLine (s :: rest)] :=
  c4_seed_election_and_ordering
    (fun s => if s = "aa" then some 5 else if s = "ab" then some 7 else none)
    "ab" ["aa", "ab"] [("aa", 5), ("ab", 7)] (by rfl) (by simp)

/-- C5 counterexample.  The claim asserts that a SubCluster
`{X(10), Y(10)}` with root key X and Y lexicographically smaller than X does
NOT drift (X would remain seed).  Take X = `ab`, Y = `aa` (so Y < X
lexicographically), both of abundance 10, with the member set enumerated as
`[ab, aa]`.  After sorting, the first member is `(aa, 10)` — the tie is won
by the lexicographically smaller id — so the sub-cluster IS re-keyed under
`aa` and the root key `ab` is discarded: it does drift, refuting the claimed
non-drift. -/
theorem c5_tie_drift_counterexample :
    addAbundanceValues
      (fun s => if s = "aa" then some 10 else if s = "ab" then some 10
        else none)
      [[("ab", ["ab", "aa"])]] = some [[("aa", [("aa", 10), ("ab", 10)])]] ∧
    strLe "aa" "ab" = true ∧ "aa" ≠ "ab" := ⟨rfl, rfl, by simp⟩

/-- C5 amended (proved): whenever after sorting the first member of a
SubCluster differs from the SubCluster's original key, the SubCluster is
re-keyed under the new seed (the least member under decreasing abundance
with ties by ascending id) and the old key is discarded; in particular
`{X(10), Y(10)}` with root key X DRIFTS to seed Y exactly when Y precedes X
in the tie-break order of ascending id — the spec's first example has the
direction of the tie-break reversed, while its second example
(`{X(10), A(10)}` drifting to A < X) is correct. -/
theorem c5_seed_drift_rekeying_amended (lk : String → Option Nat)
    (k : String) (mems : List String) (sw : List (String × Nat))
    (hatt : attachAbundances lk mems = some sw) (hne : sw ≠ []) :
    ∃ s rest, sortSwarm sw = s :: rest ∧
      (∀ x ∈ sw, swarmLE s x) ∧
      addAbundanceValues lk [[(k, mems)]] = some [[(s.1, s :: rest)]] ∧
      (s.1 ≠ k → dictGet [(s.1, s :: rest)] k = none) := by
  have hperm0 : (sortSwarm sw).Perm sw := sortSwarm_perm sw
  match hs : sortSwarm sw with
  | [] =>
      rw [hs] at hperm0
      exact absurd (hperm0.symm.eq_nil) hne
  | s :: rest =>
      rw [hs] at hperm0
      have hsorted : List.Sorted swarmLE (s :: rest) := hs ▸ sortSwarm_sorted sw
      refine ⟨s, rest, rfl, ?_, ?_, ?_⟩
      · intro x hx
        have hx2 : x ∈ s :: rest := hperm0.symm.mem_iff.mp hx
        rcases List.mem_cons.mp hx2 with he | hr
        · exact he ▸ swarmLE_refl s
        · exact (List.sorted_cons.mp hsorted).1 x hr
      · exact addAbundanceValues_single lk k mems sw s rest hatt hs
      · intro hk
        simp [dictGet, hk]

/-- C5 amended witness: the drifting instance `{cb(10), aa(10)}` with root
key `cb`: the elected seed is `aa` and the old key `cb` is gone from the
re-keyed dictionary. -/
theorem c5_seed_drift_rekeying_amended_witness :
    ∃ s rest, sortSwarm [("cb", 10), ("aa", 10)] = s :: rest ∧
      (∀ x ∈ [("cb", 10), ("aa", 10)], swarmLE s x) ∧
      addAbundanceValues
        (fun s => if s = "cb" then some 10 else if s = "aa" then some 10
          else none) [[("cb", ["cb", "aa"])]] = some [[(s.1, s :: rest)]] ∧
      (s.1 ≠ "cb" → dictGet [(s.1, s :: rest)] "cb" = none) :=
  c5_seed_drift_rekeying_amended
    (fun s => if s = "cb" then some 10 else if s = "aa" then some 10 else none)
    "cb" ["cb", "aa"] [("cb", 10), ("aa", 10)] (by rfl) (by simp)

/-- When every record's seed abundance is below the threshold and every
record whose seed is still a candidate would have abundance at least the
threshold, the full-scan variant deletes nothing. -/
theorem statsFullScanSpec_no_del (t : ℚ) :
    ∀ (recs : List GlobalStatsRecord) (seeds : List (String × Nat)),
    (∀ r ∈ recs, (dictGet seeds r.seed).isSome → t ≤ (r.seedAbundance : ℚ)) →
    (∀ r ∈ recs, (r.seedAbundance : ℚ) < t) →
    statsFullScanSpec t recs seeds = seeds
  | [], seeds, _, _ => rfl
  | r :: rest, seeds, hcons, hlt => by
      have hns : ¬(dictGet seeds r.seed).isSome := by
        intro hsome
        exact absurd (hlt r (List.mem_cons_self r rest))
          (not_lt.mpr (hcons r (List.mem_cons_self r rest) hsome))
      have hcond : ¬(1 < r.cloud ∧ 2 * t + (r.singletons : ℚ) ≤ (r.mass : ℚ) ∧
          (dictGet seeds r.seed).isSome) := by
        intro h; exact hns h.2.2
      simp only [statsFullScanSpec, if_neg hcond]
      exact statsFullScanSpec_no_del t rest seeds
        (fun r2 h2 => hcons r2 (List.mem_cons_of_mem r h2))
        (fun r2 h2 => hlt r2 (List.mem_cons_of_mem r h2))

/-- C6 counterexample.  A global-stats input sorted by strictly decreasing
seed abundance (5 then 1) on which the early-stopping `stats_parse` and the
claim's full-scan variant differ: the second record's seed `aa` is a
candidate and its cluster passes the cloud/mass checks, but its seed
abundance 1 is below the threshold 2, so `stats_parse` stops at it and keeps
`aa`, while the full-scan variant (whose per-record rule has no abundance
condition) removes `aa`. -/
theorem c6_early_stop_counterexample :
    List.Pairwise
      (fun a b : GlobalStatsRecord => b.seedAbundance < a.seedAbundance)
      [⟨2, 100, "bb", 5, 0⟩, ⟨2, 100, "aa", 1, 0⟩] ∧
    statsParse 2 [⟨2, 100, "bb", 5, 0⟩, ⟨2, 100, "aa", 1, 0⟩] [("aa", 2)] =
      some [("aa", 2)] ∧
    statsFullScanSpec 2 [⟨2, 100, "bb", 5, 0⟩, ⟨2, 100, "aa", 1, 0⟩]
      [("aa", 2)] = [] := by
  refine ⟨by decide, ?_, ?_⟩
  · simp only [statsParse, show hexIndex "bb" = some 187 from rfl]
    norm_num [dictDel, show ("aa" = "bb") = False from by simp,
      show ("bb" = "aa") = False from by simp]
  · simp only [statsFullScanSpec]
    norm_num [dictGet, dictDel, show ("aa" = "bb") = False from by simp,
      show ("bb" = "aa") = False from by simp]

/-- C6 amended (proved): on a global-stats input sorted by strictly
decreasing seed abundance in which, additionally, every record whose seed is
a present candidate has seed abundance at least the threshold (the pipeline
guarantees this: a candidate is a seed in at least `threshold` samples, each
contributing at least one read), the early-stopping `stats_parse` removes
exactly the same candidates as the full-scan variant: whenever it completes
(`some out`), `out` equals the full scan's result. -/
theorem c6_early_stop_equivalence_amended (t : ℚ) :
    ∀ (recs : List GlobalStatsRecord) (seeds out : List (String × Nat)),
    List.Pairwise (fun a b => b.seedAbundance < a.seedAbundance) recs →
    (∀ r ∈ recs, (dictGet seeds r.seed).isSome → t ≤ (r.seedAbundance : ℚ)) →
    statsParse t recs seeds = some out →
    out = statsFullScanSpec t recs seeds
  | [], seeds, out, _, _, hrun => by
      simp only [statsParse] at hrun
      cases hrun
      rfl
  | r :: rest, seeds, out, hsorted, hcons, hrun => by
      by_cases hab : (r.seedAbundance : ℚ) < t
      · rw [statsParse, if_pos hab] at hrun
        cases hrun
        refine (statsFullScanSpec_no_del t (r :: rest) seeds hcons ?_).symm
        intro r2 h2
        rcases List.mem_cons.mp h2 with he | hr2
        · exact he ▸ hab
        · have hlt2 : r2.seedAbundance < r.seedAbundance :=
            (List.pairwise_cons.mp hsorted).1 r2 hr2
          calc (r2.seedAbundance : ℚ) < (r.seedAbundance : ℚ) := by
                exact_mod_cast hlt2
            _ < t := hab
      · rw [statsParse, if_neg hab] at hrun
        by_cases hguard : 1 < r.cloud ∧ 2 * t + (r.singletons : ℚ) ≤ (r.mass : ℚ)
        · rw [if_pos hguard] at hrun
          cases hhex : hexIndex r.seed with
          | none => rw [hhex] at hrun; cases hrun
          | some i =>
              rw [hhex] at hrun
              have ih := c6_early_stop_equivalence_amended t rest
                (dictDel seeds r.seed) out (List.pairwise_cons.mp hsorted).2
                (fun r2 h2 hsome => by
                  obtain ⟨v, hv⟩ := Option.isSome_iff_exists.mp hsome
                  obtain ⟨v2, hv2⟩ := dictGet_dictDel seeds r.seed r2.seed v hv
                  exact hcons r2 (List.mem_cons_of_mem r h2)
                    (Option.isSome_iff_exists.mpr ⟨v2, hv2⟩))
                hrun
              cases hsome : (dictGet seeds r.seed).isSome with
              | true =>
                  rw [statsFullScanSpec, if_pos ⟨hguard.1, hguard.2, hsome⟩]
                  exact ih
              | false =>
                  have hnone : dictGet seeds r.seed = none := by
                    cases hg : dictGet seeds r.seed with
                    | none => rfl
                    | some v => rw [hg] at hsome; cases hsome
                  rw [statsFullScanSpec,
                    if_neg (fun hcontra => by
                      rw [hsome] at hcontra
                      exact Bool.false_ne_true hcontra.2.2)]
                  rw [dictDel_of_get_none hnone] at ih
                  exact ih
        · rw [if_neg hguard] at hrun
          have ih := c6_early_stop_equivalence_amended t rest seeds out
            (List.pairwise_cons.mp hsorted).2
            (fun r2 h2 => hcons r2 (List.mem_cons_of_mem r h2)) hrun
          rw [statsFullScanSpec,
            if_neg (fun hcontra => hguard ⟨hcontra.1, hcontra.2.1⟩)]
          exact ih

/-- C6 amended witness: threshold 2, a single sorted record whose seed `aa`
is a candidate with abundance 5 ≥ 2; the early-stopping run removes `aa` and
completes with the empty candidate map, which equals the full scan's
result. -/
theorem c6_early_stop_equivalence_amended_witness :
    ([] : List (String × Nat)) =
      statsFullScanSpec 2 [⟨2, 100, "aa", 5, 0⟩] [("aa", 2)] :=
  c6_early_stop_equivalence_amended 2 [⟨2, 100, "aa", 5, 0⟩] [("aa", 2)] []
    (by decide)
    (by
      intro r hr hsome
      rcases List.mem_singleton.mp hr with he
      subst he
      norm_num)
    (by
      simp only [statsParse, show hexIndex "aa" = some 170 from rfl]
      norm_num [dictDel])

/-- C7 (threshold boundary — confirmed).  For the fixed percentage 0.05,
whenever `per_sample_stats_parse` scans its input to completion (reaching
the state `st`, with `st.nSamples` samples counted), an amplicon whose
occurrence count as a per-sample seed is `v` is retained as a candidate if
and only if `v ≥ ⌈0.05 × numberOfSamples⌉`: since `v` is an integer,
`v ≥ threshold` holds exactly when `v ≥ ⌈threshold⌉`.  In particular an
amplicon with exactly `⌈0.05 × n⌉` occurrences is retained, and (for `n ≥ 1`,
when the ceiling is positive) one with one fewer occurrence is excluded. -/
theorem c7_threshold_boundary (lines : List String) (st : PSState)
    (h : sampleCounts lines ⟨[], 0, none⟩ = some st) (s : String) (v : Nat)
    (hv : (s, v) ∈ st.counts) :
    ∃ cands, perSampleStatsParse lines (1 / 20) =
        some ((1 / 20) * (st.nSamples : ℚ), cands) ∧
      ((s, v) ∈ cands ↔ ⌈(1 / 20 : ℚ) * (st.nSamples : ℚ)⌉₊ ≤ v) := by
  refine ⟨st.counts.filter
    (fun kv => (1 / 20 : ℚ) * (st.nSamples : ℚ) ≤ (kv.2 : ℚ)), ?_, ?_⟩
  · simp only [perSampleStatsParse, h]
  · rw [List.mem_filter]
    constructor
    · intro hmem
      have hle : (1 / 20 : ℚ) * (st.nSamples : ℚ) ≤ (v : ℚ) := by
        have := hmem.2
        simpa using this
      exact Nat.ceil_le.mpr hle
    · intro hceil
      refine ⟨hv, ?_⟩
      simpa using Nat.ceil_le.mp hceil

/-- C7 witness: 21 samples, so the threshold is 21/20 and its ceiling is 2;
the seed `aa` occurs in exactly 2 samples and is retained (2 ≥ ⌈21/20⌉ = 2),
while `ab`, with one fewer occurrence, is excluded (the same theorem applied
at count 1 gives a membership equivalent to `2 ≤ 1`, which is false). -/
theorem c7_threshold_boundary_witness :
    (∃ cands, perSampleStatsParse
        ["s01\t9\t9\taa\t9", "s02\t9\t9\taa\t9", "s03\t9\t9\tab\t9",
         "s04\t9\t9\tff\t9", "s05\t9\t9\tff\t9", "s06\t9\t9\tff\t9",
         "s07\t9\t9\tff\t9", "s08\t9\t9\tff\t9", "s09\t9\t9\tff\t9",
         "s10\t9\t9\tff\t9", "s11\t9\t9\tff\t9", "s12\t9\t9\tff\t9",
         "s13\t9\t9\tff\t9", "s14\t9\t9\tff\t9", "s15\t9\t9\tff\t9",
         "s16\t9\t9\tff\t9", "s17\t9\t9\tff\t9", "s18\t9\t9\tff\t9",
         "s19\t9\t9\tff\t9", "s20\t9\t9\tff\t9", "s21\t9\t9\tff\t9"]
        (1 / 20) = some ((1 / 20) * ((21 : Nat) : ℚ), cands) ∧
      (("aa", 2) ∈ cands ↔ ⌈(1 / 20 : ℚ) * ((21 : Nat) : ℚ)⌉₊ ≤ 2)) ∧
    ⌈(1 / 20 : ℚ) * ((21 : Nat) : ℚ)⌉₊ = 2 :=
  ⟨c7_threshold_boundary _ ⟨[("aa", 2), ("ab", 1), ("ff", 18)], 21, some "s21"⟩
      (by rfl) "aa" 2 (by simp),
   by rw [show ((21 : Nat) : ℚ) = 21 from by norm_num]; rw [Nat.ceil_eq_iff] <;> norm_num⟩

/-- A per-sample stats line with at least five fields and a
hexadecimal-indexable seed is accepted by the loop body. -/
theorem perSampleStep_some (st : PSState) (line : String)
    (h5 : 5 ≤ numFields line) (hhex : (hexIndex (seedField line)).isSome) :
    (perSampleStep st line).isSome := by
  unfold perSampleStep
  rw [sampleSeedFields_of_numFields h5]
  cases hh : hexIndex (seedField line) with
  | none => rw [hh] at hhex; cases hhex
  | some i =>
      simp only [hh]
      split <;> rfl

/-- A scan over lines that all have at least five fields and
hexadecimal-indexable seeds completes. -/
theorem sampleCounts_isSome :
    ∀ (lines : List String) (st : PSState),
    (∀ l ∈ lines, 5 ≤ numFields l ∧ (hexIndex (seedField l)).isSome) →
    (sampleCounts lines st).isSome
  | [], st, _ => rfl
  | line :: rest, st, hall => by
      simp only [sampleCounts]
      have h1 := hall line (List.mem_cons_self line rest)
      cases hstep : perSampleStep st line with
      | none =>
          have := perSampleStep_some st line h1.1 h1.2
          rw [hstep] at this
          cases this
      | some st2 =>
          exact sampleCounts_isSome rest st2
            (fun l h2 => hall l (List.mem_cons_of_mem line h2))

/-- C8 counterexample.  The line `s1\t1\t1\tzz\t1` has exactly five
tab-separated fields, yet `per_sample_stats_parse` aborts on it (the seed
field `zz` has no hexadecimal prefix, so `int(seed[0:2], 16)` raises
`ValueError`): not every line with five or more fields is accepted. -/
theorem c8_accepts_five_fields_counterexample :
    numFields "s1\t1\t1\tzz\t1" = 5 ∧
    perSampleStatsParse ["s1\t1\t1\tzz\t1"] (1 / 20) = none := ⟨rfl, rfl⟩

/-- C8 amended (proved).  First part: when `per_sample_stats_parse` reaches
a line with fewer than five tab-separated fields (all earlier lines having
been processed), the whole run aborts.  Second part: an input of lines that
all have at least five fields — the fields beyond the fifth being ignored —
AND whose seed fields all carry a valid hexadecimal prefix is fully
accepted. -/
theorem c8_malformed_record_abort_amended (p : ℚ) :
    (∀ pre bad post st, sampleCounts pre ⟨[], 0, none⟩ = some st →
      numFields bad < 5 → perSampleStatsParse (pre ++ bad :: post) p = none) ∧
    (∀ lines, (∀ l ∈ lines, 5 ≤ numFields l ∧ (hexIndex (seedField l)).isSome) →
      (perSampleStatsParse lines p).isSome) := by
  constructor
  · intro pre bad post st hpre hbad
    unfold perSampleStatsParse
    rw [sampleCounts_append, hpre]
    simp only [sampleCounts, perSampleStep, sampleSeedFields_none hbad]
  · intro lines hall
    unfold perSampleStatsParse
    cases hsc : sampleCounts lines ⟨[], 0, none⟩ with
    | none =>
        have := sampleCounts_isSome lines ⟨[], 0, none⟩ hall
        rw [hsc] at this
        cases this
    | some st => rfl

/-- C8 amended witness: after the well-formed line `s1\t1\t1\taa\t1`, the
three-field line `x\ty\tz` aborts the run; and the one-line input consisting
of only the well-formed line is fully accepted. -/
theorem c8_malformed_record_abort_amended_witness :
    perSampleStatsParse ["s1\t1\t1\taa\t1", "x\ty\tz"] (1 / 20) = none ∧
    (perSampleStatsParse ["s1\t1\t1\taa\t1"] (1 / 20)).isSome :=
  ⟨(c8_malformed_record_abort_amended (1 / 20)).1 ["s1\t1\t1\taa\t1"] "x\ty\tz"
      [] ⟨[("aa", 1)], 1, some "s1"⟩ (by rfl) (by decide),
   (c8_malformed_record_abort_amended (1 / 20)).2 ["s1\t1\t1\taa\t1"]
      (by decide)⟩

/-- C9 counterexample.  Not every identifier read from an input file is
hex-checked or causes an abort: `stats_parse` reads the seed identifier
`zz` — which has no hexadecimal prefix — from a record whose cluster fails
the cloud/mass guard (cloud = 1), and the run continues normally, because
the shard index of line 118 is only computed inside the guarded branch. -/
theorem c9_lazy_hex_counterexample :
    hexIndex "zz" = none ∧
    statsParse 2 [⟨1, 100, "zz", 50, 0⟩] [("aa", 2)] = some [("aa", 2)] :=
  ⟨rfl, by simp only [statsParse]; norm_num⟩

/-- A swarms line containing any amplicon with no hexadecimal prefix
cannot be indexed: the inner loop of lines 152–154 aborts. -/
theorem swarmsLineAdd_none (line : SwarmsLine) (a : String) (ab : Nat)
    (hmem : (a, ab) ∈ line) (hhex : hexIndex a = none) :
    ∀ m, swarmsLineAdd line m = none := by
  induction line with
  | nil => cases hmem
  | cons p rest ih =>
      intro m
      obtain ⟨a0, ab0⟩ := p
      rcases List.mem_cons.mp hmem with he | hr
      · injection he with h1 h2
        subst h1
        simp only [swarmsLineAdd, hhex]
      · simp only [swarmsLineAdd]
        cases hexIndex a0 with
        | none => rfl
        | some i => exact ih hr _

/-- A member set containing any amplicon with no hexadecimal prefix cannot
be given abundances: the loop of lines 232–235 aborts. -/
theorem attachAbundances_none (lk : String → Option Nat) (mems : List String)
    (a : String) (hmem : a ∈ mems) (hhex : hexIndex a = none) :
    attachAbundances lk mems = none := by
  induction mems with
  | nil => cases hmem
  | cons b rest ih =>
      rcases List.mem_cons.mp hmem with he | hr
      · subst he
        simp only [attachAbundances, hhex]
      · simp only [attachAbundances]
        cases hexIndex b with
        | none => rfl
        | some i =>
            cases lk b with
            | none => rfl
            | some ab => rw [ih hr]

/-- A statistics list containing any seed with no hexadecimal prefix cannot
be indexed for the FASTA pass: the loop of lines 317–319 aborts. -/
theorem fastaIndexOfStats_none (stats : List Stat) (t : Stat)
    (hmem : t ∈ stats) (hhex : hexIndex t.seed = none) :
    ∀ m, fastaIndexOfStats stats m = none := by
  induction stats with
  | nil => cases hmem
  | cons t0 rest ih =>
      intro m
      rcases List.mem_cons.mp hmem with he | hr
      · subst he
        simp only [fastaIndexOfStats, hhex]
      · simp only [fastaIndexOfStats]
        cases hexIndex t0.seed with
        | none => rfl
        | some i => exact ih hr _

/-- C9 amended (proved): identifiers are hex-checked exactly at the
program's shard-index computations, and at each such computation an empty
or non-hexadecimal identifier raises an unhandled exception that aborts the
run.  The eight conjuncts settle the computation sites in program order:
(1) line 74 — `per_sample_stats_parse` indexes every record's seed, so
reaching any well-formed line whose seed has no hexadecimal prefix kills
the run; (2) line 118 — `stats_parse` indexes a record's seed only after
the record passes the abundance and cloud/mass checks, and then a
non-hexadecimal seed aborts (the counterexample shows a guard-failing
record is read without any check); (3) lines 152–154 — `swarms_parse`
indexes every amplicon of a line that intersects the candidate set, so one
bad amplicon on such a line aborts; (4) line 202 — `struct_parse` indexes
the son of every edge of a flagged cluster while the early-termination
counter is nonzero; (5) line 233 — finalization indexes every sub-cluster
member; (6) line 318 and (8) line 339 — `fasta_parse` indexes every
statistics seed both when building its target dictionary and when emitting;
(7) line 329 — `fasta_parse` indexes every scanned FASTA header amplicon.
Identifiers can also be read without any hex check — a struct father at
lines 208–218, an amplicon of a non-intersecting swarms line, or the
guard-failing stats record of the counterexample — so the original
universal claim is false, but wherever a shard index is computed the
claimed abort behaviour holds. -/
theorem c9_hex_abort_amended (p : ℚ) :
    (∀ pre line post sm sd st, sampleCounts pre ⟨[], 0, none⟩ = some st →
      sampleSeedFields line = some (sm, sd) → hexIndex sd = none →
      perSampleStatsParse (pre ++ line :: post) p = none) ∧
    (∀ (t : ℚ) (r : GlobalStatsRecord) (rest : List GlobalStatsRecord)
      (seeds : List (String × Nat)), ¬((r.seedAbundance : ℚ) < t) →
      (1 < r.cloud ∧ 2 * t + (r.singletons : ℚ) ≤ (r.mass : ℚ)) →
      hexIndex r.seed = none → statsParse t (r :: rest) seeds = none) ∧
    (∀ (seedsSet : List String) (line : SwarmsLine) (rest : List SwarmsLine)
      (st : SwState) (a : String) (ab : Nat) (c : String) (cab : Nat),
      (c, cab) ∈ line → c ∈ seedsSet → (a, ab) ∈ line → hexIndex a = none →
      swarmsLoop seedsSet (line :: rest) st = none) ∧
    (∀ (seeds : List (String × Nat)) (gset : List String) (l : StructLine)
      (rest : List StructLine) (st : StState), st.counter ≠ 0 →
      st.flagged = true → l.clusterId = st.prevId → hexIndex l.son = none →
      structLoop seeds gset (l :: rest) st = none) ∧
    (∀ (lk : String → Option Nat) (k : String) (mems : List String)
      (copy : SwarmClusters) (a : String), a ∈ mems → hexIndex a = none →
      finalizeCluster lk k mems copy = none) ∧
    (∀ (stats : List Stat) (m : FastaMap) (t : Stat), t ∈ stats →
      hexIndex t.seed = none → fastaIndexOfStats stats m = none) ∧
    (∀ (minAb : Nat) (a : String) (ab : Nat) (rest : List FastaLine)
      (cur : Option String) (m : FastaMap), hexIndex a = none →
      fastaScan minAb (FastaLine.header a ab :: rest) cur m = none) ∧
    (∀ (m : FastaMap) (t : Stat) (rest : List Stat),
      hexIndex t.seed = none → fastaOut m (t :: rest) = none) := by
  refine ⟨?_, ?_, ?_, ?_, ?_, ?_, ?_, ?_⟩
  · intro pre line post sm sd st hpre hsf hhex
    unfold perSampleStatsParse
    rw [sampleCounts_append, hpre]
    simp only [sampleCounts, perSampleStep, hsf, hhex]
  · intro t r rest seeds hab hguard hhex
    simp only [statsParse, if_neg hab, if_pos hguard, hhex]
  · intro seedsSet line rest st a ab c cab hc hcs hmem hhex
    have hcommon : c ∈ ((line.map Prod.fst).filter
        (fun x => x ∈ seedsSet)).dedup := by
      rw [List.mem_dedup, List.mem_filter]
      exact ⟨List.mem_map.mpr ⟨(c, cab), hc, rfl⟩, by simpa using hcs⟩
    have hne : ((line.map Prod.fst).filter
        (fun x => x ∈ seedsSet)).dedup ≠ [] := by
      intro h
      rw [h] at hcommon
      cases hcommon
    simp only [swarmsLoop, if_neg hne, swarmsLineAdd_none line a ab hmem hhex]
  · intro seeds gset l rest st hcounter hflag hcl hhex
    simp only [structLoop, hcl]
    simp [hcounter, hflag, hhex]
  · intro lk k mems copy a hmem hhex
    simp only [finalizeCluster, attachAbundances_none lk mems a hmem hhex]
  · intro stats m t hmem hhex
    exact fastaIndexOfStats_none stats t hmem hhex m
  · intro minAb a ab rest cur m hhex
    simp only [fastaScan, hhex]
  · intro m t rest hhex
    simp only [fastaOut, hhex]

/-- C9 amended witness, one instance per conjunct (the identifiers `!!`,
`z!` and `zz` have no hexadecimal prefix): (1) the per-sample line
`q1\t2\t3\t!!\t4` aborts `per_sample_stats_parse`; (2) a guard-passing
global-stats record with seed `!!` aborts `stats_parse`; (3) a swarms line
containing candidate `aa` and bad amplicon `z!` aborts the swarms scan;
(4) an edge of flagged cluster 1 with son `zz` aborts the struct scan;
(5) a sub-cluster member `!!` aborts finalization; (6) and (8) a statistics
seed `!!` aborts the FASTA dictionary build and the FASTA emission;
(7) a FASTA header amplicon `!!` aborts the FASTA scan. -/
theorem c9_hex_abort_amended_witness :
    perSampleStatsParse ["q1\t2\t3\t!!\t4"] (1 / 20) = none ∧
    statsParse 2 [⟨2, 100, "!!", 50, 0⟩] [] = none ∧
    swarmsLoop ["aa"] [[("aa", 5), ("z!", 7)]] ⟨[], [], 1⟩ = none ∧
    structLoop [("bb", 1)] ["aa"] [⟨"aa", "zz", 1⟩]
      ⟨1, true, [("aa", ["aa"])], [], 1⟩ = none ∧
    finalizeCluster (fun _ => some 1) "aa" ["aa", "!!"] [("aa", [])] = none ∧
    fastaIndexOfStats [⟨1, 5, "!!", 5, 0, "0", "0"⟩] [] = none ∧
    fastaScan 1 [FastaLine.header "!!" 9] none [] = none ∧
    fastaOut [] [⟨1, 5, "!!", 5, 0, "0", "0"⟩] = none :=
  ⟨by
    have h := (c9_hex_abort_amended (1 / 20)).1 [] "q1\t2\t3\t!!\t4" []
      "q1" "!!" ⟨[], 0, none⟩ (by rfl) (by rfl) (by rfl)
    simpa using h,
   (c9_hex_abort_amended (1 / 20)).2.1 2 ⟨2, 100, "!!", 50, 0⟩ [] []
      (by norm_num) (by norm_num) (by rfl),
   (c9_hex_abort_amended (1 / 20)).2.2.1 ["aa"] [("aa", 5), ("z!", 7)] []
      ⟨[], [], 1⟩ "z!" 7 "aa" 5 (by simp) (by simp) (by simp) (by rfl),
   (c9_hex_abort_amended (1 / 20)).2.2.2.1 [("bb", 1)] ["aa"]
      ⟨"aa", "zz", 1⟩ [] ⟨1, true, [("aa", ["aa"])], [], 1⟩ (by decide)
      (by rfl) (by rfl) (by rfl),
   (c9_hex_abort_amended (1 / 20)).2.2.2.2.1 (fun _ => some 1) "aa"
      ["aa", "!!"] [("aa", [])] "!!" (by simp) (by rfl),
   (c9_hex_abort_amended (1 / 20)).2.2.2.2.2.1 [⟨1, 5, "!!", 5, 0, "0", "0"⟩]
      [] ⟨1, 5, "!!", 5, 0, "0", "0"⟩ (by simp) (by rfl),
   (c9_hex_abort_amended (1 / 20)).2.2.2.2.2.2.1 1 "!!" 9 [] none []
      (by rfl),
   (c9_hex_abort_amended (1 / 20)).2.2.2.2.2.2.2 [] ⟨1, 5, "!!", 5, 0, "0", "0"⟩
      [] (by rfl)⟩

/-- C10 (output determinism — confirmed).  The only run-to-run
nondeterminism in the pipeline is the Python `set` iteration order over
sub-cluster member sets in `add_abundance_values` (string hashing is
randomized per process; all other collections are insertion-ordered
dictionaries or lists, filled in input order, and sets are elsewhere used
only for membership tests).  For two runs seeing the same carved clusters
with member sets enumerated in any two orders, `add_abundance_values`
produces identical results (aborting together), because every swarm is
sorted under the total order (descending abundance, then ascending id)
before use; consequently the updated statistics lines (sorted by descending
total abundance, then descending unique-amplicon count, then ascending seed
id), the membership lines and the representative-sequence records of the two
runs are identical. -/
theorem c10_output_determinism (lk : String → Option Nat)
    (fastaLines : List FastaLine) (n1 n2 : List Clusters)
    (h : ClustersListPerm n1 n2) :
    addAbundanceValues lk n1 = addAbundanceValues lk n2 ∧
    pipelineFinalize lk fastaLines n1 = pipelineFinalize lk fastaLines n2 := by
  have hav := addAbundanceValues_congr lk h
  exact ⟨hav, by unfold pipelineFinalize; rw [hav]⟩

/-- C10 witness: one carved cluster whose root `aa` has member set
`{aa, ab}`, enumerated as `[aa, ab]` by one run and `[ab, aa]` by the other;
the two runs' finalized clusters and their three outputs coincide. -/
theorem c10_output_determinism_witness :
    addAbundanceValues
        (fun s => if s = "aa" then some 5 else if s = "ab" then some 3
          else none) [[("aa", ["aa", "ab"])]] =
      addAbundanceValues
        (fun s => if s = "aa" then some 5 else if s = "ab" then some 3
          else none) [[("aa", ["ab", "aa"])]] ∧
    pipelineFinalize
        (fun s => if s = "aa" then some 5 else if s = "ab" then some 3
          else none) [FastaLine.header "aa" 9, FastaLine.seq "ACGT"]
        [[("aa", ["aa", "ab"])]] =
      pipelineFinalize
        (fun s => if s = "aa" then some 5 else if s = "ab" then some 3
          else none) [FastaLine.header "aa" 9, FastaLine.seq "ACGT"]
        [[("aa", ["ab", "aa"])]] :=
  c10_output_determinism
    (fun s => if s = "aa" then some 5 else if s = "ab" then some 3 else none)
    [FastaLine.header "aa" 9, FastaLine.seq "ACGT"]
    [[("aa", ["aa", "ab"])]] [[("aa", ["ab", "aa"])]]
    (List.Forall₂.cons
      (List.Forall₂.cons ⟨rfl, List.Perm.swap "ab" "aa" []⟩ List.Forall₂.nil)
      List.Forall₂.nil)
